import Mathlib

/-!
Verification of the rendezvous/broadcast barrier implemented by
`SynchronizationActor` in
`src/python/ray/train/v2/_internal/execution/checkpoint/sync_actor.py`.

The actor serializes all bookkeeping of `broadcast_from_rank_zero` under one
condition variable, so each call's observable effect decomposes into atomic
steps on the shared state:

* the arrival step (`broadcast_arrive` below): `_setup_or_validate_collective_op`,
  the rank-0 data store and guarded counter increment from
  `_broadcast_collective_context_manager`, then either immediate release
  (last arrival) with `_clear_states`, or recording the arrival timestamp in
  `_sync_start_times` (first statements of `_wait_with_logging`) and
  suspending, or an error path (mismatch `ValueError` or an out-of-range
  index) followed by `_clear_states` from the context manager's `finally`;
* the wake step (`broadcast_wake`): a released waiter reads `_reduced_data`
  and runs `_clear_states`;
* the timeout step (`broadcast_timeout_exit`): a timed-out waiter builds the
  `BroadcastCollectiveTimeoutError` from `_get_time_elapsed_dict` and then
  runs `_clear_states`.

Machine floats of the event-loop clock are modelled as `Int` instants;
Python `None` becomes `Option.none`.
-/

namespace SyncActor

/-- The mutable fields of `SynchronizationActor` set up in `__init__`:
`_counter`, `_world_size`, `_reduced_data`, `_sync_start_times`,
`_timeout_s`, `_warn_interval_s`.  The counter is an `Int` because Python
ints are unbounded and `_clear_states` decrements unconditionally. -/
structure ActorState (V : Type) where
  counter : Int
  world_size : Nat
  reduced_data : Option V
  sync_start_times : List (Option Int)
  timeout_s : Int
  warn_interval_s : Int
deriving Repr, DecidableEq

/-- The state `__init__` produces: counter 0, world size 0, no data,
empty start-times list. -/
def initialState (V : Type) (timeout_s warn_interval_s : Int) : ActorState V :=
  ⟨0, 0, none, [], timeout_s, warn_interval_s⟩

/-- `get_counter`: `return self._counter` — returns the field, and the body
contains no assignment, so the state passes through unchanged. -/
def get_counter {V : Type} (s : ActorState V) : Int × ActorState V :=
  (s.counter, s)

/-- `get_world_size`: `return self._world_size`. -/
def get_world_size {V : Type} (s : ActorState V) : Nat × ActorState V :=
  (s.world_size, s)

/-- `get_reduced_data`: `return self._reduced_data`. -/
def get_reduced_data {V : Type} (s : ActorState V) : Option V × ActorState V :=
  (s.reduced_data, s)

/-- `_clear_states`: decrement `_counter`; if it reaches exactly 0, reset
`_reduced_data` to `None` and `_world_size` to 0.  (`_sync_start_times` is
not touched here; it is reallocated on the next round's setup.) -/
def clear_states {V : Type} (s : ActorState V) : ActorState V :=
  let c := s.counter - 1
  if c = 0 then
    { s with counter := c, reduced_data := none, world_size := 0 }
  else
    { s with counter := c }

/-- The errors a call can surface: the `ValueError` of
`_setup_or_validate_collective_op` (carrying the caller's and the stored
world size, from which its f-string message is formatted), the
`BroadcastCollectiveTimeoutError` (carrying the per-rank elapsed-time
snapshot and `_timeout_s`), and Python's `IndexError` from
`self._sync_start_times[world_rank] = current_time`. -/
inductive SyncError where
  | configMismatch (got expected : Nat)
  | broadcastTimeout (time_elapsed : List (Nat × Option Int)) (timeout_s : Int)
  | indexError
deriving Repr, DecidableEq

/-- The message of the mismatch `ValueError`:
`f"Expects all callers to provide the same world size. \` (line break
escaped inside the literal, so the next line's indentation is part of the
string) `Got {world_size} and expected {self._world_size}."`. -/
def mismatchMessage (got expected : Nat) : String :=
  "Expects all callers to provide the same world size. " ++
    "                " ++ "Got " ++ Nat.repr got ++ " and expected " ++
    Nat.repr expected ++ "."

/-- `_setup_or_validate_collective_op`: if no round is active
(`_world_size == 0`) initialize `_world_size` and allocate
`_sync_start_times = [None] * world_size`; else if the caller's world size
differs, raise the mismatch `ValueError`; else leave the state alone. -/
def setup_or_validate_collective_op {V : Type} (s : ActorState V)
    (world_size : Nat) : Except SyncError (ActorState V) :=
  if s.world_size = 0 then
    .ok { s with world_size := world_size,
                 sync_start_times := List.replicate world_size none }
  else if world_size ≠ s.world_size then
    .error (.configMismatch world_size s.world_size)
  else
    .ok s

/-- The body of `_broadcast_collective_context_manager` between setup and
`yield`: `if world_rank == 0: self._reduced_data = data` followed by
`if self._counter < self._world_size: self._counter += 1`. -/
def enterStep {V : Type} (s : ActorState V) (world_rank : Nat) (data : V) :
    ActorState V :=
  let s1 := if world_rank = 0 then { s with reduced_data := some data } else s
  if s1.counter < (s1.world_size : Int) then
    { s1 with counter := s1.counter + 1 }
  else
    s1

/-- `_get_time_elapsed_dict`: for each index of `_sync_start_times`,
`current_time - start_time if start_time else None`.  Note the Python
truthiness test: both `None` and a recorded timestamp of `0.0` are falsy
and map to `None`. -/
def get_time_elapsed_dict (times : List (Option Int)) (current_time : Int) :
    List (Nat × Option Int) :=
  times.enum.map (fun p =>
    (p.1, match p.2 with
          | some start_time =>
              if start_time = 0 then none else some (current_time - start_time)
          | none => none))

/-- `_get_broadcast_collective_timeout_error`: builds the structured timeout
error from the current elapsed-time snapshot and `_timeout_s`. -/
def broadcast_timeout_error {V : Type} (s : ActorState V) (current_time : Int) :
    SyncError :=
  .broadcastTimeout (get_time_elapsed_dict s.sync_start_times current_time)
    s.timeout_s

/-- Outcome of the atomic arrival step of `broadcast_from_rank_zero`:
either the caller suspends on the condition (`waiting`), or it was the last
arrival and returns `_reduced_data` immediately (`released`, with
`_clear_states` already run by the context manager), or it raises
(`errored`, with `_clear_states` run by the context manager's `finally`). -/
inductive ArriveResult (V : Type) where
  | waiting (s : ActorState V)
  | released (result : Option V) (s : ActorState V)
  | errored (e : SyncError) (s : ActorState V)
deriving Repr, DecidableEq

/-- The atomic bookkeeping step of `broadcast_from_rank_zero`, executed under
`async with self._condition`:

1. `_setup_or_validate_collective_op(world_size)`; on `ValueError` the
   context manager's `finally` runs `_clear_states` and the error
   propagates;
2. the rank-0 store and guarded increment (`enterStep`);
3. `if self._counter == self._world_size`: `notify_all`, return
   `self._reduced_data` (then `_clear_states` from the context manager);
4. else `_wait_with_logging` first runs
   `self._sync_start_times[world_rank] = current_time` — an `IndexError`
   when `world_rank` is out of range (then `_clear_states` and the error
   propagates) — and otherwise the caller suspends. -/
def broadcast_arrive {V : Type} (s : ActorState V) (world_rank world_size : Nat)
    (data : V) (t : Int) : ArriveResult V :=
  match setup_or_validate_collective_op s world_size with
  | .error e => .errored e (clear_states s)
  | .ok s1 =>
    let s3 := enterStep s1 world_rank data
    if s3.counter = (s3.world_size : Int) then
      .released s3.reduced_data (clear_states s3)
    else if world_rank < s3.sync_start_times.length then
      .waiting { s3 with
        sync_start_times := s3.sync_start_times.set world_rank (some t) }
    else
      .errored .indexError (clear_states s3)

/-- The exit step of a waiter released by `notify_all`: it returns
`self._reduced_data` (read before the `finally`), then `_clear_states`. -/
def broadcast_wake {V : Type} (s : ActorState V) : Option V × ActorState V :=
  (s.reduced_data, clear_states s)

/-- The exit step of a waiter whose outer `asyncio.wait_for` timed out:
`_get_broadcast_collective_timeout_error()` is built from the pre-cleanup
state, then the context manager's `finally` runs `_clear_states`. -/
def broadcast_timeout_exit {V : Type} (s : ActorState V) (current_time : Int) :
    SyncError × ActorState V :=
  (broadcast_timeout_error s current_time, clear_states s)

/-! ### Scenario driver: serialized arrivals of one round, then the drain

Since every arrival's bookkeeping runs under the actor's condition variable,
a round in which exactly the participants of that round call
`broadcast_from_rank_zero` is captured by: the arrival steps in some order,
then (after the last arrival's `notify_all`) the wake steps of the waiters
in some order.  `broadcast_wake` does not depend on which waiter wakes, so
the drain is a plain iteration. -/

/-- What one call to `broadcast_from_rank_zero` has produced so far:
still blocked on the condition, returned a value, or raised an error. -/
inductive CallOutcome (V : Type) where
  | stillWaiting
  | returned (result : Option V)
  | raised (e : SyncError)
deriving Repr, DecidableEq

/-- Run a list of arrivals `(world_rank, arrival_time)` sequentially against
the actor, every caller declaring world size `N` and rank `r` supplying
`d r`, collecting each call's outcome so far. -/
def execArrivals {V : Type} (N : Nat) (d : Nat → V) :
    ActorState V → List (Nat × Int) → ActorState V × List (CallOutcome V)
  | s, [] => (s, [])
  | s, (r, t) :: rest =>
    match broadcast_arrive s r N (d r) t with
    | .waiting s' =>
        let p := execArrivals N d s' rest
        (p.1, .stillWaiting :: p.2)
    | .released res s' =>
        let p := execArrivals N d s' rest
        (p.1, .returned res :: p.2)
    | .errored e s' =>
        let p := execArrivals N d s' rest
        (p.1, .raised e :: p.2)

/-- Wake `m` waiters in sequence, collecting the value each returns. -/
def drain {V : Type} : ActorState V → Nat → ActorState V × List (Option V)
  | s, 0 => (s, [])
  | s, m + 1 =>
    let r := broadcast_wake s
    let p := drain r.2 m
    (p.1, r.1 :: p.2)

/-- The value of `_reduced_data` after the arrivals of `calls`, starting
from `rd`: each rank-0 arrival overwrites it with rank 0's data. -/
def finalRd {V : Type} (d : Nat → V) (calls : List (Nat × Int))
    (rd : Option V) : Option V :=
  calls.foldl (fun acc p => if p.1 = 0 then some (d p.1) else acc) rd

/-! ### Transition system over all call interleavings

For the reachable-state invariants, the actor plus the multiset of
currently-suspended calls forms a labelled transition system whose atomic
steps are exactly the ones above.  Waking is enabled whenever a waiter
exists (an over-approximation of "after `notify_all`", sound for proving
invariants of all reachable states); a timeout exit is enabled for a waiter
once `_timeout_s` has elapsed since its recorded arrival. -/

/-- A call suspended inside `_wait_with_logging`: its rank and the arrival
instant it recorded in `_sync_start_times`. -/
structure Waiter where
  rank : Nat
  start : Int
deriving Repr, DecidableEq

/-- Actor state together with the currently suspended calls. -/
structure Config (V : Type) where
  actor : ActorState V
  waiting : List Waiter
deriving Repr, DecidableEq

/-- The configuration of a freshly constructed actor with no calls. -/
def initConfig (V : Type) (timeout_s warn_interval_s : Int) : Config V :=
  ⟨initialState V timeout_s warn_interval_s, []⟩

/-- One atomic step of the system under any sequence of
`broadcast_from_rank_zero` calls.  Arrivals respect the public interface
(`world_size > 0`, `world_rank ≥ 0`); everything else is unconstrained. -/
inductive Step {V : Type} : Config V → Config V → Prop where
  | arrive_waiting (c : Config V) (r ws : Nat) (v : V) (t : Int)
      (s' : ActorState V) (hws : 1 ≤ ws)
      (h : broadcast_arrive c.actor r ws v t = .waiting s') :
      Step c ⟨s', ⟨r, t⟩ :: c.waiting⟩
  | arrive_released (c : Config V) (r ws : Nat) (v : V) (t : Int)
      (res : Option V) (s' : ActorState V) (hws : 1 ≤ ws)
      (h : broadcast_arrive c.actor r ws v t = .released res s') :
      Step c ⟨s', c.waiting⟩
  | arrive_errored (c : Config V) (r ws : Nat) (v : V) (t : Int)
      (e : SyncError) (s' : ActorState V) (hws : 1 ≤ ws)
      (h : broadcast_arrive c.actor r ws v t = .errored e s') :
      Step c ⟨s', c.waiting⟩
  | wake (c : Config V) (w : Waiter) (hw : w ∈ c.waiting) :
      Step c ⟨(broadcast_wake c.actor).2, c.waiting.erase w⟩
  | timeout_exit (c : Config V) (w : Waiter) (now : Int) (hw : w ∈ c.waiting)
      (ht : w.start + c.actor.timeout_s ≤ now) :
      Step c ⟨(broadcast_timeout_exit c.actor now).2, c.waiting.erase w⟩

/-- Same transition system, restricted to traces in which no call fails
with the Configuration Mismatch `ValueError`. -/
inductive StepNM {V : Type} : Config V → Config V → Prop where
  | arrive_waiting (c : Config V) (r ws : Nat) (v : V) (t : Int)
      (s' : ActorState V) (hws : 1 ≤ ws)
      (h : broadcast_arrive c.actor r ws v t = .waiting s') :
      StepNM c ⟨s', ⟨r, t⟩ :: c.waiting⟩
  | arrive_released (c : Config V) (r ws : Nat) (v : V) (t : Int)
      (res : Option V) (s' : ActorState V) (hws : 1 ≤ ws)
      (h : broadcast_arrive c.actor r ws v t = .released res s') :
      StepNM c ⟨s', c.waiting⟩
  | arrive_errored (c : Config V) (r ws : Nat) (v : V) (t : Int)
      (e : SyncError) (s' : ActorState V) (hws : 1 ≤ ws)
      (h : broadcast_arrive c.actor r ws v t = .errored e s')
      (hnm : ∀ g x, e ≠ .configMismatch g x) :
      StepNM c ⟨s', c.waiting⟩
  | wake (c : Config V) (w : Waiter) (hw : w ∈ c.waiting) :
      StepNM c ⟨(broadcast_wake c.actor).2, c.waiting.erase w⟩
  | timeout_exit (c : Config V) (w : Waiter) (now : Int) (hw : w ∈ c.waiting)
      (ht : w.start + c.actor.timeout_s ≤ now) :
      StepNM c ⟨(broadcast_timeout_exit c.actor now).2, c.waiting.erase w⟩

/-- Configurations reachable by any sequence of calls. -/
def ReachableAll (V : Type) (timeout_s warn_interval_s : Int) (c : Config V) :
    Prop :=
  Relation.ReflTransGen Step (initConfig V timeout_s warn_interval_s) c

/-- Configurations reachable by sequences of calls in which no call fails
with Configuration Mismatch. -/
def ReachableNM (V : Type) (timeout_s warn_interval_s : Int) (c : Config V) :
    Prop :=
  Relation.ReflTransGen StepNM (initConfig V timeout_s warn_interval_s) c

/-! ### Helper lemmas -/

/-- `_clear_states` never touches `_sync_start_times`. -/
theorem clear_states_times {V : Type} (s : ActorState V) :
    (clear_states s).sync_start_times = s.sync_start_times := by
  by_cases h : s.counter - 1 = 0 <;> simp [clear_states, h]

/-! ### Claim theorems: accessors, round manager, error construction -/

/-- C8: the diagnostic accessors `get_counter`, `get_world_size` and
`get_reduced_data` are read-only: their Python bodies are a single `return`
of the field with no assignment, so each returns the current field value
and leaves the actor state (all six fields) exactly as it was. -/
theorem c8_accessors_read_only {V : Type} (s : ActorState V) :
    (get_counter s).1 = s.counter ∧ (get_counter s).2 = s ∧
    (get_world_size s).1 = s.world_size ∧ (get_world_size s).2 = s ∧
    (get_reduced_data s).1 = s.reduced_data ∧ (get_reduced_data s).2 = s :=
  ⟨rfl, rfl, rfl, rfl, rfl, rfl⟩

/-- C6: `_clear_states` (the cleanup run on every exit of
`broadcast_from_rank_zero`) decrements the counter by exactly 1, and
exactly when the counter thereby reaches 0 it resets `_reduced_data` to
`None` and `_world_size` to 0; consequently, after the last participant
leaves (counter 1 → 0), a subsequent round with any world size `ws` finds
`_world_size = 0`, so `_setup_or_validate_collective_op` starts it from a
clean state — fresh all-`None` start times and no residual
`_reduced_data`. -/
theorem c6_clear_states_spec {V : Type} (s : ActorState V) (ws : Nat) :
    (clear_states s).counter = s.counter - 1 ∧
    (clear_states s).reduced_data
        = (if s.counter - 1 = 0 then none else s.reduced_data) ∧
    (clear_states s).world_size
        = (if s.counter - 1 = 0 then 0 else s.world_size) ∧
    (clear_states { s with counter := 1 }).reduced_data = none ∧
    setup_or_validate_collective_op (clear_states { s with counter := 1 }) ws
        = .ok { clear_states { s with counter := 1 } with
                world_size := ws,
                sync_start_times := List.replicate ws none } := by
  refine ⟨?_, ?_, ?_, ?_, ?_⟩ <;>
    by_cases h : s.counter - 1 = 0 <;>
      simp [clear_states, setup_or_validate_collective_op, h]

/-- C7: the enter step of `broadcast_from_rank_zero` never increments the
counter past the world size: when the counter already equals the active
round's world size, the guarded increment
`if self._counter < self._world_size: self._counter += 1` is silently
skipped, leaving the counter unchanged, and the call raises no error — it
takes the release branch (`counter == world_size`) and returns
`_reduced_data`. -/
theorem c7_counter_capped {V : Type} (s : ActorState V) (r : Nat) (v : V)
    (t : Int) (hc : s.counter = (s.world_size : Int))
    (hws : s.world_size ≠ 0) :
    (enterStep s r v).counter = s.counter ∧
    broadcast_arrive s r s.world_size v t
      = .released (enterStep s r v).reduced_data
          (clear_states (enterStep s r v)) := by
  have henter : enterStep s r v
      = if r = 0 then { s with reduced_data := some v } else s := by
    unfold enterStep
    by_cases h0 : r = 0 <;> simp [h0, hc]
  constructor
  · rw [henter]; by_cases h0 : r = 0 <;> simp [h0]
  · unfold broadcast_arrive setup_or_validate_collective_op
    rw [if_neg hws, if_neg (by simp)]
    simp only
    rw [if_pos]
    rw [henter]; by_cases h0 : r = 0 <;> simp [h0, hc]

/-- Witness for `c7_counter_capped` at a concrete full round state. -/
theorem c7_counter_capped_witness :
    (enterStep (ActorState.mk 2 2 (some 7) [some 0, some 1] 5 1) 0
        (9 : Nat)).counter = 2 ∧
    broadcast_arrive (ActorState.mk 2 2 (some 7) [some 0, some 1] 5 1) 0 2
        (9 : Nat) 3
      = .released
          (enterStep (ActorState.mk 2 2 (some 7) [some 0, some 1] 5 1) 0
            (9 : Nat)).reduced_data
          (clear_states
            (enterStep (ActorState.mk 2 2 (some 7) [some 0, some 1] 5 1) 0
              (9 : Nat))) :=
  c7_counter_capped (ActorState.mk 2 2 (some 7) [some 0, some 1] 5 1) 0 9 3
    (by decide) (by decide)

/-- C4: `broadcast_from_rank_zero` fails with the Configuration Mismatch
`ValueError` if and only if, at its bookkeeping step, a round is active
(stored `_world_size ≠ 0`) and the caller's `world_size` differs from the
stored one; the failure happens synchronously in
`_setup_or_validate_collective_op` before any waiting (the post-error state
is `clear_states` of the pre-state, whose `_sync_start_times` is untouched,
so no arrival timestamp was recorded), and the error's message names both
the caller's value and the active round's value. -/
theorem c4_config_mismatch_iff {V : Type} (s : ActorState V) (r ws : Nat)
    (v : V) (t : Int) :
    (broadcast_arrive s r ws v t
        = .errored (.configMismatch ws s.world_size) (clear_states s)
      ↔ s.world_size ≠ 0 ∧ ws ≠ s.world_size) ∧
    (clear_states s).sync_start_times = s.sync_start_times ∧
    (∃ a b c, mismatchMessage ws s.world_size
        = a ++ Nat.repr ws ++ b ++ Nat.repr s.world_size ++ c) := by
  refine ⟨?_, clear_states_times s, ?_⟩
  · constructor
    · intro h
      by_cases h0 : s.world_size = 0
      · exfalso
        unfold broadcast_arrive setup_or_validate_collective_op at h
        rw [if_pos h0] at h
        simp only at h
        split at h
        · exact ArriveResult.noConfusion h
        · split at h
          · exact ArriveResult.noConfusion h
          · rw [ArriveResult.errored.injEq] at h
            exact SyncError.noConfusion h.1
      · by_cases hne : ws = s.world_size
        · exfalso
          unfold broadcast_arrive setup_or_validate_collective_op at h
          rw [if_neg h0, if_neg (by simp [hne])] at h
          simp only at h
          split at h
          · exact ArriveResult.noConfusion h
          · split at h
            · exact ArriveResult.noConfusion h
            · rw [ArriveResult.errored.injEq] at h
              exact SyncError.noConfusion h.1
        · exact ⟨h0, hne⟩
    · rintro ⟨h0, hne⟩
      unfold broadcast_arrive setup_or_validate_collective_op
      rw [if_neg h0, if_pos hne]
  · exact ⟨"Expects all callers to provide the same world size. " ++
      "                " ++ "Got ", " and expected ", ".", rfl⟩

/-- C9: a caller whose `world_size` matches the active round but whose
`world_rank` is at least the world size, and who is not the arrival that
completes the round, fails with Python's unstructured `IndexError` (not
Configuration Mismatch, not Broadcast Timeout) at
`self._sync_start_times[world_rank] = current_time` in
`_wait_with_logging`, even though the public interface only requires
`world_rank ≥ 0`.  (`_clear_states` still runs from the `finally`.) -/
theorem c9_index_error {V : Type} (s : ActorState V) (rank : Nat) (v : V)
    (t : Int) (hws : s.world_size ≠ 0)
    (hlen : s.sync_start_times.length = s.world_size)
    (hr : s.world_size ≤ rank) (hlt : s.counter < (s.world_size : Int))
    (hnl : s.counter + 1 ≠ (s.world_size : Int)) :
    broadcast_arrive s rank s.world_size v t
      = .errored .indexError (clear_states (enterStep s rank v)) := by
  have hrank0 : rank ≠ 0 := by
    intro h
    rw [h] at hr
    omega
  have henter : enterStep s rank v = { s with counter := s.counter + 1 } := by
    unfold enterStep
    simp [hrank0, hlt]
  unfold broadcast_arrive setup_or_validate_collective_op
  rw [if_neg hws, if_neg (by simp)]
  simp only
  rw [henter]
  rw [if_neg (by simpa using hnl), if_neg (by simp [hlen]; omega)]

/-- Witness for `c9_index_error`: active round of size 3 with one waiter
inside, a matching call from rank 5. -/
theorem c9_index_error_witness :
    broadcast_arrive (ActorState.mk 1 3 none [none, none, none] 5 1) 5 3
        (9 : Nat) 0
      = .errored .indexError
          (clear_states
            (enterStep (ActorState.mk 1 3 none [none, none, none] 5 1) 5
              (9 : Nat))) :=
  c9_index_error (ActorState.mk 1 3 none [none, none, none] 5 1) 5 9 0
    (by decide) (by decide) (by decide) (by decide) (by decide)

/-! ### Lemmas about one full round -/

/-- Mid-round precondition on the actor state: counter `k`, reduced data
`rd`, and either an active round of size `N` with start-times allocated, or
no active round yet (then nobody is inside). -/
def Pre {V : Type} (s : ActorState V) (N k : Nat) (rd : Option V) : Prop :=
  s.counter = (k : Int) ∧ s.reduced_data = rd ∧
  ((s.world_size = N ∧ s.sync_start_times.length = N) ∨
   (s.world_size = 0 ∧ k = 0))

theorem setup_pre {V : Type} {s : ActorState V} {N k : Nat} {rd : Option V}
    (hpre : Pre s N k rd) (hN : 1 ≤ N) :
    ∃ s1, setup_or_validate_collective_op s N = .ok s1 ∧
      s1.counter = (k : Int) ∧ s1.reduced_data = rd ∧
      s1.world_size = N ∧ s1.sync_start_times.length = N := by
  obtain ⟨hc, hrd, hcase⟩ := hpre
  rcases hcase with ⟨hws, hlen⟩ | ⟨hws, hk0⟩
  · refine ⟨s, ?_, hc, hrd, hws, hlen⟩
    unfold setup_or_validate_collective_op
    rw [if_neg (by rw [hws]; omega), if_neg (by simp [hws])]
  · have hnew : setup_or_validate_collective_op s N
        = .ok { s with world_size := N,
                       sync_start_times := List.replicate N none } := by
      unfold setup_or_validate_collective_op
      rw [if_pos hws]
    exact ⟨_, hnew, hc, hrd, rfl, by simp⟩

theorem enter_pre {V : Type} {s1 : ActorState V} {N k : Nat} {rd : Option V}
    (hc : s1.counter = (k : Int)) (hrd : s1.reduced_data = rd)
    (hws : s1.world_size = N) (hk : k < N) (rank : Nat) (v : V) :
    (enterStep s1 rank v).counter = (k : Int) + 1 ∧
    (enterStep s1 rank v).reduced_data
        = (if rank = 0 then some v else rd) ∧
    (enterStep s1 rank v).world_size = N ∧
    (enterStep s1 rank v).sync_start_times = s1.sync_start_times := by
  have hlt : (k : Int) < (N : Int) := by omega
  unfold enterStep
  by_cases h0 : rank = 0 <;> simp [h0, hc, hrd, hws, hlt]

/-- An arrival that is not the last of its round suspends, and the
mid-round precondition advances. -/
theorem arrive_pre_waiting {V : Type} {s : ActorState V} {N k : Nat}
    {rd : Option V} (rank : Nat) (v : V) (t : Int) (hpre : Pre s N k rd)
    (hk : k + 1 < N) (hrank : rank < N) :
    ∃ s', broadcast_arrive s rank N v t = .waiting s' ∧
      Pre s' N (k + 1) (if rank = 0 then some v else rd) := by
  obtain ⟨s1, hsetup, hc1, hrd1, hws1, hlen1⟩ := setup_pre hpre (by omega)
  obtain ⟨hc3, hrd3, hws3, htimes3⟩ :=
    enter_pre hc1 hrd1 hws1 (by omega) rank v
  refine ⟨{ enterStep s1 rank v with
            sync_start_times :=
              (enterStep s1 rank v).sync_start_times.set rank (some t) }, ?_, ?_⟩
  · unfold broadcast_arrive
    rw [hsetup]
    simp only
    rw [if_neg (by rw [hc3, hws3]; omega),
        if_pos (by rw [htimes3, hlen1]; exact hrank)]
  · exact ⟨by simpa using hc3, by simpa using hrd3, Or.inl ⟨hws3,
      by simp [htimes3, hlen1]⟩⟩

/-- The last arrival of a round releases immediately, returning the stored
reduced data, and `_clear_states` runs before its return. -/
theorem arrive_pre_released {V : Type} {s : ActorState V} {N k : Nat}
    {rd : Option V} (rank : Nat) (v : V) (t : Int) (hpre : Pre s N k rd)
    (hN : 1 ≤ N) (hk : k + 1 = N) :
    ∃ s', broadcast_arrive s rank N v t
        = .released (if rank = 0 then some v else rd) s' ∧
      s'.counter = (N : Int) - 1 ∧ s'.sync_start_times.length = N ∧
      ((N = 1 ∧ s'.world_size = 0 ∧ s'.reduced_data = none) ∨
       (1 < N ∧ s'.world_size = N ∧
        s'.reduced_data = (if rank = 0 then some v else rd))) := by
  obtain ⟨s1, hsetup, hc1, hrd1, hws1, hlen1⟩ := setup_pre hpre hN
  obtain ⟨hc3, hrd3, hws3, htimes3⟩ :=
    enter_pre hc1 hrd1 hws1 (by omega) rank v
  refine ⟨clear_states (enterStep s1 rank v), ?_, ?_, ?_, ?_⟩
  · unfold broadcast_arrive
    rw [hsetup]
    simp only
    rw [if_pos (by rw [hc3, hws3]; omega), hrd3]
  · rw [clear_states, hc3]
    split <;> simp <;> omega
  · rw [clear_states_times, htimes3, hlen1]
  · rcases Nat.lt_or_ge 1 N with h1 | h1
    · refine Or.inr ⟨h1, ?_, ?_⟩
      · rw [clear_states, hc3]
        rw [if_neg (by omega)]
        exact hws3
      · rw [clear_states, hc3]
        rw [if_neg (by omega)]
        exact hrd3
    · have hN1 : N = 1 := by omega
      refine Or.inl ⟨hN1, ?_, ?_⟩
      · rw [clear_states, hc3]
        rw [if_pos (by omega)]
      · rw [clear_states, hc3]
        rw [if_pos (by omega)]

theorem finalRd_no_zero {V : Type} (d : Nat → V) (calls : List (Nat × Int)) :
    ∀ rd, (∀ p ∈ calls, p.1 ≠ 0) → finalRd d calls rd = rd := by
  induction calls with
  | nil => intro rd _; rfl
  | cons p rest ih =>
    intro rd h
    have hp : p.1 ≠ 0 := h p (by simp)
    show List.foldl _ (if p.1 = 0 then some (d p.1) else rd) rest = rd
    rw [if_neg hp]
    exact ih rd (fun q hq => h q (by simp [hq]))

theorem finalRd_mem_zero {V : Type} (d : Nat → V) (calls : List (Nat × Int)) :
    0 ∈ calls.map Prod.fst → ∀ rd, finalRd d calls rd = some (d 0) := by
  induction calls with
  | nil => intro h; simp at h
  | cons p rest ih =>
    intro h rd
    show List.foldl _ (if p.1 = 0 then some (d p.1) else rd) rest = some (d 0)
    by_cases hz : 0 ∈ rest.map Prod.fst
    · exact ih hz _
    · have hp : p.1 = 0 := by
        rcases List.mem_map.mp h with ⟨q, hq, hq0⟩
        rcases List.mem_cons.mp hq with rfl | hqr
        · exact hq0.symm ▸ rfl
        · exact absurd (List.mem_map.mpr ⟨q, hqr, hq0⟩) hz
      rw [if_pos hp, hp]
      refine finalRd_no_zero d rest _ (fun q hq hq0 => ?_)
      exact hz (List.mem_map.mpr ⟨q, hq, hq0⟩)

theorem execArrivals_cons {V : Type} (N : Nat) (d : Nat → V)
    (s : ActorState V) (r : Nat) (t : Int) (rest : List (Nat × Int)) :
    execArrivals N d s ((r, t) :: rest)
      = match broadcast_arrive s r N (d r) t with
        | .waiting s' =>
            ((execArrivals N d s' rest).1,
             CallOutcome.stillWaiting :: (execArrivals N d s' rest).2)
        | .released res s' =>
            ((execArrivals N d s' rest).1,
             CallOutcome.returned res :: (execArrivals N d s' rest).2)
        | .errored e s' =>
            ((execArrivals N d s' rest).1,
             CallOutcome.raised e :: (execArrivals N d s' rest).2) := rfl

/-- Serialized arrivals of one round: every arrival but the last suspends,
the last returns the accumulated reduced data, and the post-release state
has counter `N - 1` (the last caller already left), the round torn down
when `N = 1` and otherwise still active with the data in place for the
waiters. -/
theorem exec_spec {V : Type} (N : Nat) (d : Nat → V) :
    ∀ (calls : List (Nat × Int)) (s : ActorState V) (k : Nat)
      (rd : Option V), Pre s N k rd → k + calls.length = N → calls ≠ [] →
      (∀ p ∈ calls, p.1 < N) →
      (execArrivals N d s calls).2
          = List.replicate (calls.length - 1) CallOutcome.stillWaiting
              ++ [CallOutcome.returned (finalRd d calls rd)] ∧
      (execArrivals N d s calls).1.counter = (N : Int) - 1 ∧
      ((N = 1 ∧ (execArrivals N d s calls).1.world_size = 0 ∧
        (execArrivals N d s calls).1.reduced_data = none) ∨
       (1 < N ∧ (execArrivals N d s calls).1.world_size = N ∧
        (execArrivals N d s calls).1.reduced_data = finalRd d calls rd)) := by
  intro calls
  induction calls with
  | nil => intro s k rd _ _ hne _; exact absurd rfl hne
  | cons head rest ih =>
    obtain ⟨r, t⟩ := head
    intro s k rd hpre hlen _ hranks
    have hrank : r < N := (hranks (r, t) (by simp))
    have hfr : finalRd d ((r, t) :: rest) rd
        = finalRd d rest (if r = 0 then some (d r) else rd) := rfl
    cases rest with
    | nil =>
      have hkN : k + 1 = N := by simpa using hlen
      obtain ⟨s', harr, hc', _, hcase⟩ :=
        arrive_pre_released (s := s) r (d r) t hpre (by omega) hkN
      have hfr1 : finalRd d [(r, t)] rd = (if r = 0 then some (d r) else rd) := by
        by_cases h0 : r = 0 <;> simp [finalRd, h0]
      have hex : execArrivals N d s [(r, t)]
          = (s', [CallOutcome.returned (if r = 0 then some (d r) else rd)]) := by
        rw [execArrivals_cons, harr]
        rfl
      refine ⟨?_, ?_, ?_⟩
      · rw [hex, hfr1]; rfl
      · rw [hex]; exact hc'
      · rw [hex, hfr1]
        rcases hcase with ⟨h1, hw, hr⟩ | ⟨h1, hw, hr⟩
        · exact Or.inl ⟨h1, hw, hr⟩
        · exact Or.inr ⟨h1, hw, hr⟩
    | cons head2 rest2 =>
      have hk1 : k + 1 < N := by
        simp only [List.length_cons] at hlen
        omega
      obtain ⟨s', harr, hpre'⟩ :=
        arrive_pre_waiting (s := s) r (d r) t hpre hk1 hrank
      have hlen' : (k + 1) + (head2 :: rest2).length = N := by
        simp only [List.length_cons] at hlen ⊢
        omega
      have hranks' : ∀ p ∈ head2 :: rest2, p.1 < N :=
        fun p hp => hranks p (by simp [hp])
      obtain ⟨hout, hc', hcase⟩ :=
        ih s' (k + 1) (if r = 0 then some (d r) else rd) hpre' hlen'
          (by simp) hranks'
      have hrep : List.replicate ((head2 :: rest2).length)
            (CallOutcome.stillWaiting (V := V))
          = CallOutcome.stillWaiting
              :: List.replicate ((head2 :: rest2).length - 1)
                   CallOutcome.stillWaiting := by
        simp [List.length_cons, List.replicate_succ]
      have hex : execArrivals N d s ((r, t) :: head2 :: rest2)
          = ((execArrivals N d s' (head2 :: rest2)).1,
             CallOutcome.stillWaiting
               :: (execArrivals N d s' (head2 :: rest2)).2) := by
        rw [execArrivals_cons, harr]
      refine ⟨?_, ?_, ?_⟩
      · rw [hex]
        show CallOutcome.stillWaiting :: _ = _
        rw [hout, hfr,
          show ((r, t) :: head2 :: rest2).length - 1
              = (head2 :: rest2).length from rfl, hrep]
        rfl
      · rw [hex]; exact hc'
      · rw [hex, hfr]
        exact hcase

/-- Draining `m` waiters from a state with counter `m`: each returns the
currently stored reduced data (the reads all happen before the final
reset), and the last one's `_clear_states` resets the round. -/
theorem drain_spec {V : Type} :
    ∀ (m : Nat) (s : ActorState V), s.counter = (m : Int) → 1 ≤ m →
      (drain s m).2 = List.replicate m s.reduced_data ∧
      (drain s m).1.counter = 0 ∧ (drain s m).1.world_size = 0 ∧
      (drain s m).1.reduced_data = none := by
  intro m
  induction m with
  | zero => intro s _ hm; omega
  | succ m ih =>
    intro s hc _
    rcases Nat.eq_zero_or_pos m with h0 | hpos
    · subst h0
      have hclear : clear_states s
          = { s with counter := 0, reduced_data := none, world_size := 0 } := by
        unfold clear_states
        rw [hc]
        simp
      simp [drain, broadcast_wake, hclear]
    · have hclear : clear_states s = { s with counter := (m : Int) } := by
        unfold clear_states
        rw [hc]
        rw [if_neg (by omega)]
        congr 1
        omega
      obtain ⟨hout, hcf, hwf, hrf⟩ :=
        ih { s with counter := (m : Int) } rfl hpos
      refine ⟨?_, ?_, ?_, ?_⟩ <;>
        simp [drain, broadcast_wake, hclear, hout, hcf, hwf, hrf,
          List.replicate_succ]

/-- C2 counterexample: a Configuration Mismatch failure does NOT leave the
round state unchanged.  Concretely: from the fresh actor
(`timeout_s = 5`, `warn_interval_s = 1`), rank 0 arrives declaring world
size 2 with data 7 and waits (counter 1, world size 2, data stored); then a
call declaring world size 3 fails with the mismatch error — and the state
after the failed call has counter 0, world size 0 and no reduced data: the
`finally` of `_broadcast_collective_context_manager` ran `_clear_states`
for a caller that never incremented, tearing down the round under the
still-waiting rank 0. -/
theorem c2_counterexample :
    broadcast_arrive (initialState Nat 5 1) 0 2 7 0
      = .waiting (ActorState.mk 1 2 (some 7) [some 0, none] 5 1) ∧
    broadcast_arrive (ActorState.mk 1 2 (some 7) [some 0, none] 5 1) 1 3 9 1
      = .errored (.configMismatch 3 2)
          (ActorState.mk 0 0 none [some 0, none] 5 1) ∧
    ActorState.mk 0 0 none [some 0, none] 5 1
      ≠ ActorState.mk 1 2 (some 7) [some 0, none] 5 1 := by
  refine ⟨by decide, by decide, by decide⟩

/-- C2 amended: when a call fails with Configuration Mismatch, the shared
round state is not preserved — the context manager's `finally` still runs
`_clear_states`, so the state after the failed call is exactly
`clear_states` of the state before it: the counter is decremented by 1
even though the failed caller never incremented it, and if the counter
thereby reaches 0 the round's `_reduced_data` and `_world_size` are reset
while any already-waiting caller is still suspended.  Only
`_sync_start_times` is left untouched. -/
theorem c2_amended_mismatch_clears {V : Type} (s : ActorState V)
    (r ws : Nat) (v : V) (t : Int) (h0 : s.world_size ≠ 0)
    (hne : ws ≠ s.world_size) :
    broadcast_arrive s r ws v t
      = .errored (.configMismatch ws s.world_size) (clear_states s) ∧
    (clear_states s).counter = s.counter - 1 ∧
    (clear_states s).sync_start_times = s.sync_start_times := by
  refine ⟨?_, ?_, clear_states_times s⟩
  · unfold broadcast_arrive setup_or_validate_collective_op
    rw [if_neg h0, if_pos hne]
  · by_cases h : s.counter - 1 = 0 <;> simp [clear_states, h]

/-- Witness for `c2_amended_mismatch_clears` at the concrete round of
`c2_counterexample`. -/
theorem c2_amended_witness :
    broadcast_arrive (ActorState.mk 1 2 (some 7) [some 0, none] 5 1) 1 3
        (9 : Nat) 1
      = .errored (.configMismatch 3 2)
          (clear_states (ActorState.mk 1 2 (some 7) [some 0, none] 5 1)) ∧
    (clear_states
        (ActorState.mk 1 2 (some 7) [some 0, none] 5 1 : ActorState Nat)).counter
      = 1 - 1 ∧
    (clear_states
        (ActorState.mk 1 2 (some 7) [some 0, none] 5 1 : ActorState Nat)).sync_start_times
      = [some 0, none] :=
  c2_amended_mismatch_clears (ActorState.mk 1 2 (some 7) [some 0, none] 5 1)
    1 3 9 1 (by decide) (by decide)

/-- C5: the code contradicts the claim (and its own docstring) at a
recorded arrival timestamp of `0.0`: `_get_time_elapsed_dict` computes
`current_time - start_time if start_time else None`, a Python truthiness
test, so a rank whose recorded `start_time` is the falsy float `0.0` maps
to `None` in the timeout snapshot even though it did arrive.  Ranks with a
nonzero timestamp map to their elapsed time and ranks that never arrived
map to `None`; the error built from such a state still carries the
configured `timeout_s` but reports the rank-0 arrival as `None`. -/
theorem c5_zero_timestamp_dropped :
    get_time_elapsed_dict [some 0, some 2, none] 5
      = [(0, none), (1, some 3), (2, none)] ∧
    broadcast_timeout_error
        (ActorState.mk 1 2 (some 7) [some 0, none] 5 1 : ActorState Nat) 10
      = .broadcastTimeout [(0, none), (1, none)] 5 := by
  refine ⟨by decide, by decide⟩

/-- C1: for every `N ≥ 1`, if exactly `N` calls to
`broadcast_from_rank_zero` arrive with distinct ranks `0..N-1` (in any
arrival order, at any times), all declaring `world_size = N`, with rank 0
supplying `P` (and other ranks supplying whatever `d` assigns them), and
none times out, then: every arrival but the last suspends and the last
returns `P`; every suspended caller, woken by the release, also returns
`P`; and after all `N` calls have returned, `get_counter()` returns 0 and
`get_world_size()` returns 0. -/
theorem c1_full_round_returns_payload {V : Type}
    (timeout_s warn_interval_s : Int) (N : Nat) (hN : 1 ≤ N)
    (calls : List (Nat × Int)) (d : Nat → V) (P : V)
    (hperm : List.Perm (calls.map Prod.fst) (List.range N)) (hd : d 0 = P) :
    (execArrivals N d (initialState V timeout_s warn_interval_s) calls).2
        = List.replicate (N - 1) CallOutcome.stillWaiting
            ++ [CallOutcome.returned (some P)] ∧
    (drain (execArrivals N d (initialState V timeout_s warn_interval_s)
        calls).1 (N - 1)).2
      = List.replicate (N - 1) (some P) ∧
    (get_counter (drain (execArrivals N d
        (initialState V timeout_s warn_interval_s) calls).1 (N - 1)).1).1
      = 0 ∧
    (get_world_size (drain (execArrivals N d
        (initialState V timeout_s warn_interval_s) calls).1 (N - 1)).1).1
      = 0 := by
  have hlen : calls.length = N := by
    have := hperm.length_eq
    simpa using this
  have hne : calls ≠ [] := by
    intro h
    rw [h] at hlen
    simp at hlen
    omega
  have hranks : ∀ p ∈ calls, p.1 < N := by
    intro p hp
    have : p.1 ∈ calls.map Prod.fst := List.mem_map.mpr ⟨p, hp, rfl⟩
    have : p.1 ∈ List.range N := hperm.mem_iff.mp this
    exact List.mem_range.mp this
  have hzero : 0 ∈ calls.map Prod.fst :=
    hperm.mem_iff.mpr (List.mem_range.mpr (by omega))
  have hpre : Pre (initialState V timeout_s warn_interval_s) N 0 none :=
    ⟨rfl, rfl, Or.inr ⟨rfl, rfl⟩⟩
  obtain ⟨hout, hc, hcase⟩ :=
    exec_spec N d calls (initialState V timeout_s warn_interval_s) 0 none
      hpre (by omega) hne hranks
  have hfr : finalRd d calls none = some P := by
    rw [finalRd_mem_zero d calls hzero none, hd]
  rcases hcase with ⟨h1, hw, hr⟩ | ⟨h1, hw, hr⟩
  · subst h1
    refine ⟨?_, ?_, ?_, ?_⟩
    · rw [hout, hfr, hlen]
    · rfl
    · have h0 : (execArrivals 1 d (initialState V timeout_s warn_interval_s)
          calls).1.counter = 0 := by
        rw [hc]
        rfl
      exact h0
    · exact hw
  · have hm : (execArrivals N d (initialState V timeout_s warn_interval_s)
        calls).1.counter = ((N - 1 : Nat) : Int) := by
      rw [hc]
      omega
    obtain ⟨hdout, hdc, hdw, _⟩ :=
      drain_spec (N - 1)
        (execArrivals N d (initialState V timeout_s warn_interval_s) calls).1
        hm (by omega)
    refine ⟨?_, ?_, ?_, ?_⟩
    · rw [hout, hfr, hlen]
    · rw [hdout, hr, hfr]
    · exact hdc
    · exact hdw

/-- Witness for `c1_full_round_returns_payload`: a round of 2 with ranks
arriving in order 1, 0; rank 0 supplies 10. -/
theorem c1_full_round_witness :
    (execArrivals 2 (fun r => r + 10) (initialState Nat 5 1)
        [(1, 0), (0, 2)]).2
        = List.replicate 1 CallOutcome.stillWaiting
            ++ [CallOutcome.returned (some 10)] ∧
    (drain (execArrivals 2 (fun r => r + 10) (initialState Nat 5 1)
        [(1, 0), (0, 2)]).1 1).2
      = List.replicate 1 (some 10) ∧
    (get_counter (drain (execArrivals 2 (fun r => r + 10)
        (initialState Nat 5 1) [(1, 0), (0, 2)]).1 1).1).1 = 0 ∧
    (get_world_size (drain (execArrivals 2 (fun r => r + 10)
        (initialState Nat 5 1) [(1, 0), (0, 2)]).1 1).1).1 = 0 :=
  c1_full_round_returns_payload 5 1 2 (by decide) [(1, 0), (0, 2)]
    (fun r => r + 10) 10 (by decide) rfl

/-- C10: if a round completes with `world_size = N` calls arriving and
being released but no participant declaring rank 0, every call in that
round returns `None` rather than raising: `_reduced_data` is only ever
written by a rank-0 caller, so it keeps its reset value `None`, which the
release and wake paths return. -/
theorem c10_no_rank_zero_returns_none {V : Type}
    (timeout_s warn_interval_s : Int) (N : Nat) (hN : 1 ≤ N)
    (calls : List (Nat × Int)) (d : Nat → V) (hlen : calls.length = N)
    (hranks : ∀ p ∈ calls, p.1 < N ∧ p.1 ≠ 0) :
    (execArrivals N d (initialState V timeout_s warn_interval_s) calls).2
        = List.replicate (N - 1) CallOutcome.stillWaiting
            ++ [CallOutcome.returned none] ∧
    (drain (execArrivals N d (initialState V timeout_s warn_interval_s)
        calls).1 (N - 1)).2
      = List.replicate (N - 1) none ∧
    (get_counter (drain (execArrivals N d
        (initialState V timeout_s warn_interval_s) calls).1 (N - 1)).1).1
      = 0 ∧
    (get_world_size (drain (execArrivals N d
        (initialState V timeout_s warn_interval_s) calls).1 (N - 1)).1).1
      = 0 := by
  have hne : calls ≠ [] := by
    intro h
    rw [h] at hlen
    simp at hlen
    omega
  have hpre : Pre (initialState V timeout_s warn_interval_s) N 0 none :=
    ⟨rfl, rfl, Or.inr ⟨rfl, rfl⟩⟩
  obtain ⟨hout, hc, hcase⟩ :=
    exec_spec N d calls (initialState V timeout_s warn_interval_s) 0 none
      hpre (by omega) hne (fun p hp => (hranks p hp).1)
  have hfr : finalRd d calls none = none :=
    finalRd_no_zero d calls none (fun p hp => (hranks p hp).2)
  rcases hcase with ⟨h1, hw, hr⟩ | ⟨h1, hw, hr⟩
  · subst h1
    refine ⟨?_, ?_, ?_, ?_⟩
    · rw [hout, hfr, hlen]
    · rfl
    · have h0 : (execArrivals 1 d (initialState V timeout_s warn_interval_s)
          calls).1.counter = 0 := by
        rw [hc]
        rfl
      exact h0
    · exact hw
  · have hm : (execArrivals N d (initialState V timeout_s warn_interval_s)
        calls).1.counter = ((N - 1 : Nat) : Int) := by
      rw [hc]
      omega
    obtain ⟨hdout, hdc, hdw, _⟩ :=
      drain_spec (N - 1)
        (execArrivals N d (initialState V timeout_s warn_interval_s) calls).1
        hm (by omega)
    refine ⟨?_, ?_, ?_, ?_⟩
    · rw [hout, hfr, hlen]
    · rw [hdout, hr, hfr]
    · exact hdc
    · exact hdw

/-- Witness for `c10_no_rank_zero_returns_none`: a round of 2 joined twice
by rank 1 and never by rank 0. -/
theorem c10_no_rank_zero_witness :
    (execArrivals 2 (fun r => r + 10) (initialState Nat 5 1)
        [(1, 0), (1, 2)]).2
        = List.replicate 1 CallOutcome.stillWaiting
            ++ [CallOutcome.returned none] ∧
    (drain (execArrivals 2 (fun r => r + 10) (initialState Nat 5 1)
        [(1, 0), (1, 2)]).1 1).2
      = List.replicate 1 none ∧
    (get_counter (drain (execArrivals 2 (fun r => r + 10)
        (initialState Nat 5 1) [(1, 0), (1, 2)]).1 1).1).1 = 0 ∧
    (get_world_size (drain (execArrivals 2 (fun r => r + 10)
        (initialState Nat 5 1) [(1, 0), (1, 2)]).1 1).1).1 = 0 :=
  c10_no_rank_zero_returns_none 5 1 2 (by decide) [(1, 0), (1, 2)]
    (fun r => r + 10) rfl (by decide)

/-! ### The round-state invariant over reachable configurations -/

/-- Actor-level invariant: either no active round (counter 0, world size 0)
or an active round with the counter strictly between 0 and the world
size. -/
def InvA {V : Type} (a : ActorState V) : Prop :=
  (a.counter = 0 ∧ a.world_size = 0) ∨
  (0 < a.counter ∧ a.counter < (a.world_size : Int))

/-- Inductive invariant of the transition system: the actor-level invariant
plus the fact that every suspended call has contributed to the counter. -/
def StrongInv {V : Type} (c : Config V) : Prop :=
  (c.waiting.length : Int) ≤ c.actor.counter ∧ InvA c.actor

theorem enterStep_lt {V : Type} {s : ActorState V}
    (h : s.counter < (s.world_size : Int)) (r : Nat) (v : V) :
    (enterStep s r v).counter = s.counter + 1 ∧
    (enterStep s r v).world_size = s.world_size ∧
    (enterStep s r v).sync_start_times = s.sync_start_times := by
  unfold enterStep
  by_cases h0 : r = 0 <;> simp [h0, h]

theorem clear_exit_inv {V : Type} {a : ActorState V}
    (h1 : 0 < a.counter) (h2 : a.counter < (a.world_size : Int)) :
    (clear_states a).counter = a.counter - 1 ∧ InvA (clear_states a) := by
  unfold clear_states InvA
  by_cases h0 : a.counter - 1 = 0
  · rw [if_pos h0]
    exact ⟨rfl, Or.inl ⟨h0, rfl⟩⟩
  · rw [if_neg h0]
    refine ⟨rfl, Or.inr ⟨?_, ?_⟩⟩
    · show 0 < a.counter - 1
      omega
    · show a.counter - 1 < (a.world_size : Int)
      omega

/-- Complete classification of one arrival's outcome from a state
satisfying the actor invariant, with `world_size ≥ 1` as the public
interface requires. -/
theorem arrive_char {V : Type} (a : ActorState V) (r ws : Nat) (v : V)
    (t : Int) (hA : InvA a) (hws : 1 ≤ ws) :
    (∃ s', broadcast_arrive a r ws v t = .waiting s' ∧
      s'.counter = a.counter + 1 ∧ 0 < s'.counter ∧
      s'.counter < (s'.world_size : Int)) ∨
    (∃ res s', broadcast_arrive a r ws v t = .released res s' ∧
      s'.counter = a.counter ∧ InvA s') ∨
    (∃ e s', broadcast_arrive a r ws v t = .errored e s' ∧
      ((∃ g x, e = .configMismatch g x) ∨
       (s'.counter = a.counter ∧ InvA s'))) := by
  rcases hA with ⟨hc0, hw0⟩ | ⟨hpos, hlt⟩
  · -- no active round: setup initializes
    have hpre : Pre a ws 0 a.reduced_data := ⟨hc0, rfl, Or.inr ⟨hw0, rfl⟩⟩
    obtain ⟨s1, hsetup, hc1, hrd1, hws1, hlen1⟩ := setup_pre hpre hws
    have hc1' : s1.counter = 0 := by simpa using hc1
    have hlt1 : s1.counter < (s1.world_size : Int) := by
      rw [hc1', hws1]
      omega
    obtain ⟨he1, he2, he3⟩ := enterStep_lt hlt1 r v
    have hc3 : (enterStep s1 r v).counter = 1 := by
      rw [he1, hc1']
      omega
    have hw3 : (enterStep s1 r v).world_size = ws := by
      rw [he2, hws1]
    have harr : broadcast_arrive a r ws v t
        = (if (enterStep s1 r v).counter
              = ((enterStep s1 r v).world_size : Int) then
            .released (enterStep s1 r v).reduced_data
              (clear_states (enterStep s1 r v))
          else if r < (enterStep s1 r v).sync_start_times.length then
            .waiting { enterStep s1 r v with
              sync_start_times :=
                (enterStep s1 r v).sync_start_times.set r (some t) }
          else
            .errored .indexError (clear_states (enterStep s1 r v))) := by
      unfold broadcast_arrive
      rw [hsetup]
    by_cases hone : ws = 1
    · -- single-participant round: immediate release and full reset
      refine Or.inr (Or.inl ⟨(enterStep s1 r v).reduced_data,
        clear_states (enterStep s1 r v), ?_, ?_, ?_⟩)
      · rw [harr, if_pos (by rw [hc3, hw3, hone]; rfl)]
      · unfold clear_states
        rw [hc3]
        simp [hc0]
      · unfold clear_states InvA
        rw [hc3]
        simp
    · by_cases hrlen : r < (enterStep s1 r v).sync_start_times.length
      · refine Or.inl ⟨{ enterStep s1 r v with
            sync_start_times :=
              (enterStep s1 r v).sync_start_times.set r (some t) },
            ?_, ?_, ?_, ?_⟩
        · rw [harr, if_neg (by rw [hc3, hw3]; omega), if_pos hrlen]
        · show (enterStep s1 r v).counter = a.counter + 1
          rw [hc3, hc0]
          omega
        · show 0 < (enterStep s1 r v).counter
          rw [hc3]
          omega
        · show (enterStep s1 r v).counter
            < ((enterStep s1 r v).world_size : Int)
          rw [hc3, hw3]
          omega
      · refine Or.inr (Or.inr ⟨.indexError, clear_states (enterStep s1 r v),
          ?_, Or.inr ⟨?_, ?_⟩⟩)
        · rw [harr, if_neg (by rw [hc3, hw3]; omega), if_neg hrlen]
        · unfold clear_states
          rw [hc3]
          simp [hc0]
        · unfold clear_states InvA
          rw [hc3]
          simp
  · -- active round
    have hwpos : a.world_size ≠ 0 := by
      intro h
      rw [h] at hlt
      omega
    by_cases hwseq : ws = a.world_size
    · have hsetup : setup_or_validate_collective_op a ws = .ok a := by
        unfold setup_or_validate_collective_op
        rw [if_neg hwpos, if_neg (by simp [hwseq])]
      obtain ⟨he1, he2, he3⟩ := enterStep_lt hlt r v
      have harr : broadcast_arrive a r ws v t
          = (if (enterStep a r v).counter
                = ((enterStep a r v).world_size : Int) then
              .released (enterStep a r v).reduced_data
                (clear_states (enterStep a r v))
            else if r < (enterStep a r v).sync_start_times.length then
              .waiting { enterStep a r v with
                sync_start_times :=
                  (enterStep a r v).sync_start_times.set r (some t) }
            else
              .errored .indexError (clear_states (enterStep a r v))) := by
        unfold broadcast_arrive
        rw [hsetup]
      by_cases hlast : a.counter + 1 = (a.world_size : Int)
      · refine Or.inr (Or.inl ⟨(enterStep a r v).reduced_data,
          clear_states (enterStep a r v), ?_, ?_, ?_⟩)
        · rw [harr, if_pos (by rw [he1, he2]; exact hlast)]
        · unfold clear_states
          rw [he1, if_neg (by omega)]
          show a.counter + 1 - 1 = a.counter
          omega
        · unfold InvA clear_states
          rw [he1, if_neg (by omega)]
          refine Or.inr ⟨?_, ?_⟩
          · show 0 < a.counter + 1 - 1
            omega
          · show a.counter + 1 - 1 < ((enterStep a r v).world_size : Int)
            rw [he2]
            omega
      · by_cases hrlen : r < (enterStep a r v).sync_start_times.length
        · refine Or.inl ⟨{ enterStep a r v with
              sync_start_times :=
                (enterStep a r v).sync_start_times.set r (some t) },
              ?_, ?_, ?_, ?_⟩
          · rw [harr, if_neg (by rw [he1, he2]; exact hlast), if_pos hrlen]
          · show (enterStep a r v).counter = a.counter + 1
            exact he1
          · show 0 < (enterStep a r v).counter
            rw [he1]
            omega
          · show (enterStep a r v).counter
              < ((enterStep a r v).world_size : Int)
            rw [he1, he2]
            omega
        · refine Or.inr (Or.inr ⟨.indexError, clear_states (enterStep a r v),
            ?_, Or.inr ⟨?_, ?_⟩⟩)
          · rw [harr, if_neg (by rw [he1, he2]; exact hlast), if_neg hrlen]
          · unfold clear_states
            rw [he1, if_neg (by omega)]
            show a.counter + 1 - 1 = a.counter
            omega
          · unfold InvA clear_states
            rw [he1, if_neg (by omega)]
            refine Or.inr ⟨?_, ?_⟩
            · show 0 < a.counter + 1 - 1
              omega
            · show a.counter + 1 - 1 < ((enterStep a r v).world_size : Int)
              rw [he2]
              omega
    · refine Or.inr (Or.inr ⟨.configMismatch ws a.world_size, clear_states a,
        ?_, Or.inl ⟨ws, a.world_size, rfl⟩⟩)
      unfold broadcast_arrive setup_or_validate_collective_op
      rw [if_neg hwpos, if_pos hwseq]

/-- Every mismatch-free step preserves the inductive invariant. -/
theorem stepNM_preserves {V : Type} {c c' : Config V} (h : StepNM c c')
    (hinv : StrongInv c) : StrongInv c' := by
  obtain ⟨hlen, hA⟩ := hinv
  cases h with
  | arrive_waiting r ws v t s' hws harr =>
    rcases arrive_char c.actor r ws v t hA hws with
      ⟨s'', heq, hc', hp, hb⟩ | ⟨res, s'', heq, _, _⟩ | ⟨e, s'', heq, _⟩
    · rw [harr] at heq
      rw [ArriveResult.waiting.injEq] at heq
      subst heq
      refine ⟨?_, Or.inr ⟨hp, hb⟩⟩
      show ((⟨r, t⟩ :: c.waiting).length : Int) ≤ s'.counter
      rw [hc']
      simp only [List.length_cons]
      omega
    · rw [harr] at heq
      exact absurd heq (by simp)
    · rw [harr] at heq
      exact absurd heq (by simp)
  | arrive_released r ws v t res s' hws harr =>
    rcases arrive_char c.actor r ws v t hA hws with
      ⟨s'', heq, _, _, _⟩ | ⟨res', s'', heq, hc', hb⟩ | ⟨e, s'', heq, _⟩
    · rw [harr] at heq
      exact absurd heq (by simp)
    · rw [harr] at heq
      rw [ArriveResult.released.injEq] at heq
      obtain ⟨-, h'⟩ := heq
      subst h'
      exact ⟨by rw [hc']; exact hlen, hb⟩
    · rw [harr] at heq
      exact absurd heq (by simp)
  | arrive_errored r ws v t e s' hws harr hnm =>
    rcases arrive_char c.actor r ws v t hA hws with
      ⟨s'', heq, _, _, _⟩ | ⟨res', s'', heq, _, _⟩ | ⟨e', s'', heq, hcase⟩
    · rw [harr] at heq
      exact absurd heq (by simp)
    · rw [harr] at heq
      exact absurd heq (by simp)
    · rw [harr] at heq
      rw [ArriveResult.errored.injEq] at heq
      obtain ⟨he', h'⟩ := heq
      subst h'
      rcases hcase with ⟨g, x, hgx⟩ | ⟨hc', hb⟩
      · exact absurd (he' ▸ hgx) (by simpa using hnm g x)
      · exact ⟨by rw [hc']; exact hlen, hb⟩
  | wake w hw =>
    have hpos : 0 < c.waiting.length := List.length_pos.mpr
      (by intro h; rw [h] at hw; exact absurd hw (by simp))
    have hcpos : 0 < c.actor.counter := by
      have : (c.waiting.length : Int) ≤ c.actor.counter := hlen
      omega
    rcases hA with ⟨h1, _⟩ | ⟨h1, h2⟩
    · omega
    · obtain ⟨hc', hb⟩ := clear_exit_inv h1 h2
      refine ⟨?_, hb⟩
      show ((c.waiting.erase w).length : Int) ≤ (clear_states c.actor).counter
      rw [hc', List.length_erase_of_mem hw]
      omega
  | timeout_exit w now hw ht =>
    have hpos : 0 < c.waiting.length := List.length_pos.mpr
      (by intro h; rw [h] at hw; exact absurd hw (by simp))
    have hcpos : 0 < c.actor.counter := by
      have : (c.waiting.length : Int) ≤ c.actor.counter := hlen
      omega
    rcases hA with ⟨h1, _⟩ | ⟨h1, h2⟩
    · omega
    · obtain ⟨hc', hb⟩ := clear_exit_inv h1 h2
      refine ⟨?_, hb⟩
      show ((c.waiting.erase w).length : Int)
          ≤ (clear_states c.actor).counter
      rw [hc', List.length_erase_of_mem hw]
      omega

/-- C3 amended: in every configuration reachable by sequences of
`broadcast_from_rank_zero` calls in which no call fails with Configuration
Mismatch (timeouts, duplicate ranks and `IndexError` failures included),
the round state satisfies `0 ≤ counter ≤ world_size` and
`world_size = 0 ↔ counter = 0`.  (The restriction is forced by
`c3_counterexample`: a mismatch failure runs `_clear_states` without
having incremented, after which the invariant is violated.) -/
theorem c3_amended_invariant {V : Type} (timeout_s warn_interval_s : Int)
    (c : Config V) (h : ReachableNM V timeout_s warn_interval_s c) :
    0 ≤ c.actor.counter ∧ c.actor.counter ≤ (c.actor.world_size : Int) ∧
    (c.actor.world_size = 0 ↔ c.actor.counter = 0) := by
  have hs : StrongInv c := by
    induction h with
    | refl =>
        exact ⟨by simp [initConfig, initialState], Or.inl ⟨rfl, rfl⟩⟩
    | tail hsteps hstep ih => exact stepNM_preserves hstep ih
  obtain ⟨-, hA⟩ := hs
  rcases hA with ⟨h1, h2⟩ | ⟨h1, h2⟩
  · rw [h1, h2]
    simp
  · refine ⟨by omega, by omega, ?_⟩
    constructor
    · intro hw
      rw [hw] at h2
      omega
    · intro hc
      omega

/-- Witness for `c3_amended_invariant`: the empty trace reaching the
initial configuration. -/
theorem c3_amended_invariant_witness :
    0 ≤ (initConfig Nat 5 1).actor.counter ∧
    (initConfig Nat 5 1).actor.counter
      ≤ ((initConfig Nat 5 1).actor.world_size : Int) ∧
    ((initConfig Nat 5 1).actor.world_size = 0 ↔
     (initConfig Nat 5 1).actor.counter = 0) :=
  c3_amended_invariant 5 1 (initConfig Nat 5 1) Relation.ReflTransGen.refl

/-- C3 counterexample: the invariant `0 ≤ counter` (and with it
`world_size = 0 ↔ counter = 0`) fails in a state reachable by a real call
sequence.  Trace: rank 0 arrives declaring world size 2 and waits; a
second call declaring world size 3 fails with Configuration Mismatch,
whose cleanup decrements the counter to 0 and resets the round under the
waiting rank 0; rank 0's wait then times out (5 s elapsed by time 10) and
its own cleanup decrements the counter to `-1`. -/
theorem c3_counterexample :
    ReachableAll Nat 5 1
      ⟨ActorState.mk (-1) 0 none [some 0, none] 5 1, []⟩ ∧
    ¬ (0 ≤ (ActorState.mk (-1) 0 none [some 0, none] 5 1
            : ActorState Nat).counter ∧
       (ActorState.mk (-1) 0 none [some 0, none] 5 1
            : ActorState Nat).counter
         ≤ ((ActorState.mk (-1) 0 none [some 0, none] 5 1
            : ActorState Nat).world_size : Int) ∧
       ((ActorState.mk (-1) 0 none [some 0, none] 5 1
            : ActorState Nat).world_size = 0 ↔
        (ActorState.mk (-1) 0 none [some 0, none] 5 1
            : ActorState Nat).counter = 0)) := by
  constructor
  · have s1 : Step (initConfig Nat 5 1)
        ⟨ActorState.mk 1 2 (some 7) [some 0, none] 5 1, [⟨0, 0⟩]⟩ := by
      have h := Step.arrive_waiting (initConfig Nat 5 1) 0 2 7 0
        (ActorState.mk 1 2 (some 7) [some 0, none] 5 1) (by decide)
        (by decide)
      exact h
    have s2 : Step (V := Nat)
        ⟨ActorState.mk 1 2 (some 7) [some 0, none] 5 1, [⟨0, 0⟩]⟩
        ⟨ActorState.mk 0 0 none [some 0, none] 5 1, [⟨0, 0⟩]⟩ := by
      have h := Step.arrive_errored
        (⟨ActorState.mk 1 2 (some 7) [some 0, none] 5 1, [⟨0, 0⟩]⟩
          : Config Nat) 1 3 9 1
        (.configMismatch 3 2) (ActorState.mk 0 0 none [some 0, none] 5 1)
        (by decide) (by decide)
      exact h
    have s3 : Step (V := Nat)
        ⟨ActorState.mk 0 0 none [some 0, none] 5 1, [⟨0, 0⟩]⟩
        ⟨ActorState.mk (-1) 0 none [some 0, none] 5 1, []⟩ := by
      have h := Step.timeout_exit
        (⟨ActorState.mk 0 0 none [some 0, none] 5 1, [⟨0, 0⟩]⟩ : Config Nat)
        ⟨0, 0⟩ 10 (by decide) (by decide)
      have heq : (⟨(broadcast_timeout_exit
            (ActorState.mk 0 0 none [some 0, none] 5 1 : ActorState Nat)
            10).2,
          ([⟨0, 0⟩] : List Waiter).erase ⟨0, 0⟩⟩ : Config Nat)
          = ⟨ActorState.mk (-1) 0 none [some 0, none] 5 1, []⟩ := by decide
      exact heq ▸ h
    exact Relation.ReflTransGen.tail
      (Relation.ReflTransGen.tail (Relation.ReflTransGen.single s1) s2) s3
  · decide

end SyncActor
